import Mathlib

/-!
Verification of the confluence-mcp adapter against its design notes.

The development shallowly embeds the TypeScript sources:
  * `src/src/logger.ts`   — audit-log sanitization and log-file trimming;
  * `src/src/config.ts`   — the space-access allowlist predicate;
  * the `ConfluenceClient` class — space-scoped operations, the space cache,
    and the remote-call traces they produce;
  * the tool dispatcher in `src/src/index.ts` — argument validation and
    error wrapping.

Remote HTTP responses are passed in as explicit oracle values; every
operation additionally returns the list of remote calls it issued so that
"performs no mutating remote call" style properties can be stated.
-/

namespace ConfluenceMcp

/-! ## JSON values (payloads seen by the audit logger) -/

/-- JSON-like values, the shape of payloads passed to the audit logger. -/
inductive JsonVal where
  | null
  | bool (b : Bool)
  | num (n : Int)
  | str (s : String)
  | arr (elems : List JsonVal)
  | obj (fields : List (String × JsonVal))

/-- The sensitive-name substrings of `Logger.removeSensitiveFields`
(`src/src/logger.ts` line 106). -/
def sensitiveKeys : List String :=
  ["password", "token", "authorization", "auth", "key", "secret"]

/-- JS `String.prototype.includes`, modelled on character lists:
`needle` occurs contiguously inside `haystack`. -/
def charsInfixOf (needle : List Char) : List Char → Bool
  | [] => needle.isEmpty
  | c :: rest => needle.isPrefixOf (c :: rest) || charsInfixOf needle rest

/-- `sensitiveKeys.some(sensitive => key.toLowerCase().includes(sensitive))`:
the lowercased field name (per-character lowercase of its characters)
contains one of the sensitive substrings. -/
def isSensitiveKey (k : String) : Bool :=
  sensitiveKeys.any (fun s => charsInfixOf s.toList (k.toList.map Char.toLower))

mutual
/-- `Logger.removeSensitiveFields` (`src/src/logger.ts` lines 103-115) as a
pure function: a field whose name is sensitive has its whole value replaced
by the redaction marker; other object-valued fields are sanitized
recursively (JS `for..in` over an array visits its indices, so arrays
recurse elementwise; primitives are left unchanged). -/
def removeSensitiveFields : JsonVal → JsonVal
  | .obj fields => .obj (removeFromFields fields)
  | .arr elems => .arr (removeFromArr elems)
  | v => v

/-- The `for (const key in obj)` loop of `removeSensitiveFields` over an
object's fields. -/
def removeFromFields : List (String × JsonVal) → List (String × JsonVal)
  | [] => []
  | (k, v) :: rest =>
      (if isSensitiveKey k then (k, JsonVal.str "[REDACTED]")
       else (k, removeSensitiveFields v)) :: removeFromFields rest

/-- The same loop over an array's elements (index names are never
sensitive, so each element is sanitized recursively). -/
def removeFromArr : List JsonVal → List JsonVal
  | [] => []
  | v :: rest => removeSensitiveFields v :: removeFromArr rest
end

/-- JS truthiness of a JSON value: `null`, `false`, `0` and the empty
string are falsy; every object and array (even empty) is truthy. -/
def jsFalsyJson : JsonVal → Bool
  | .null => true
  | .bool b => !b
  | .num n => n == 0
  | .str s => s == ""
  | _ => false

/-- `Logger.sanitizeData` (`src/src/logger.ts` lines 91-101): falsy data is
returned as-is; otherwise a deep copy (the identity on JSON values) is
sanitized by `removeSensitiveFields`. -/
def sanitizeData (d : JsonVal) : JsonVal :=
  if jsFalsyJson d then d else removeSensitiveFields d

/-- Is the value exactly the redaction marker string? -/
def isRedactedMarker : JsonVal → Bool
  | .str s => s == "[REDACTED]"
  | _ => false

mutual
/-- Soundness predicate for sanitized output: every field, at any depth,
whose name is sensitive holds exactly the redaction marker. -/
def noExposedSensitive : JsonVal → Bool
  | .obj fields => noExposedFields fields
  | .arr elems => noExposedArr elems
  | _ => true

/-- `noExposedSensitive` over an object's fields. -/
def noExposedFields : List (String × JsonVal) → Bool
  | [] => true
  | (k, v) :: rest =>
      (!isSensitiveKey k || isRedactedMarker v) &&
        noExposedSensitive v && noExposedFields rest

/-- `noExposedSensitive` over an array's elements. -/
def noExposedArr : List JsonVal → Bool
  | [] => true
  | v :: rest => noExposedSensitive v && noExposedArr rest
end

mutual
/-- Does the string `sec` occur as a string value anywhere inside the JSON
value? -/
def containsStrVal (sec : String) : JsonVal → Bool
  | .str s => s == sec
  | .arr elems => containsStrArr sec elems
  | .obj fields => containsStrFields sec fields
  | _ => false

/-- `containsStrVal` over an array's elements. -/
def containsStrArr (sec : String) : List JsonVal → Bool
  | [] => false
  | v :: rest => containsStrVal sec v || containsStrArr sec rest

/-- `containsStrVal` over an object's field values. -/
def containsStrFields (sec : String) : List (String × JsonVal) → Bool
  | [] => false
  | (_, v) :: rest => containsStrVal sec v || containsStrFields sec rest
end

/-! ## Audit-log entries -/

/-- The JSON object built by `Logger.logRequest`
(`src/src/logger.ts` lines 44-56). -/
structure LogRequestEntry where
  timestamp : String
  type : String
  method : String
  url : String
  params : JsonVal
  data : Option JsonVal

/-- `Logger.logRequest`: the entry appended (as one JSON line) for an
outbound request. `params` is passed through verbatim — the source reads
`params: params || \x7b\x7d` — while `data` alone is run through
`sanitizeData` (and a falsy `data` is logged as `undefined`, i.e. absent). -/
def logRequestEntry (timestamp method url : String) (params : Option JsonVal)
    (data : Option JsonVal) : LogRequestEntry :=
  { timestamp := timestamp
    type := "REQUEST"
    method := method.toUpper
    url := url
    params :=
      match params with
      | some p => if jsFalsyJson p then JsonVal.obj [] else p
      | none => JsonVal.obj []
    data :=
      match data with
      | some d => if jsFalsyJson d then none else some (sanitizeData d)
      | none => none }

/-! ## Log-file trimming -/

/-- The line-trimming step of `Logger.checkAndTrimLogFile`
(`src/src/logger.ts` lines 13-32): `keepLines = Math.floor(lines.length * 0.5)`
and `lines.slice(-keepLines)`; JS `slice(-0)` is `slice(0)`, the whole
array, and `slice(-k)` for `k > 0` keeps the trailing `k` elements. -/
def trimLines (lines : List String) : List String :=
  let keepLines := lines.length / 2
  if keepLines = 0 then lines else lines.drop (lines.length - keepLines)

/-- `Logger.checkAndTrimLogFile`: the file content is rewritten (split on
newlines, trimmed, re-joined) only when its size exceeds the threshold. -/
def checkAndTrimLogFile (size maxSizeBytes : Nat) (content : String) : String :=
  if size > maxSizeBytes then
    String.intercalate "\n" (trimLines (content.splitOn "\n"))
  else content

/-! ## Configuration: the space allowlist -/

/-- `validateSpaceAccess` (`src/src/config.ts` lines 37-39):
`allowedSpaces.includes(spaceKey)` — exact, case-sensitive membership. -/
def validateSpaceAccess (spaceKey : String) (allowedSpaces : List String) : Bool :=
  allowedSpaces.contains spaceKey

/-- JS truthiness of an optional string argument: absent or empty is
falsy. -/
def jsTruthy : Option String → Bool
  | some s => s != ""
  | none => false

/-! ## Client data model -/

/-- A space descriptor as returned by the remote API. -/
structure ConfluenceSpace where
  id : String
  key : String
  name : String
deriving Repr, DecidableEq

/-- A page as returned by the remote API: `spaceKey` models
`page.space?.key` (absent when the expansion did not include it),
`version` models `page.version.number`, `body` is the attached body
content (absent in v2 basic listings). -/
structure ConfluencePage where
  id : String
  title : String
  spaceKey : Option String
  version : Nat
  body : Option String
deriving Repr, DecidableEq

/-- One outbound HTTP call, recorded so that "performs no mutating remote
call" can be stated; `putPage` carries the version number submitted in its
payload. -/
inductive RemoteCall where
  | get (url : String)
  | post (url : String)
  | putPage (pageId : String) (version : Nat)
  | del (url : String)
deriving Repr, DecidableEq

/-- GETs are the only non-mutating remote calls. -/
def RemoteCall.isMutating : RemoteCall → Bool
  | .get _ => false
  | _ => true

/-! ## The space cache -/

/-- The client's in-memory cache: JS `Map`s `spaceCache` and
`spaceCacheExpiry` keyed by space key, modelled as association lists whose
most recent write comes first (observationally `Map.set`/`Map.get`). -/
structure ClientState where
  spaceCache : List (String × ConfluenceSpace)
  spaceCacheExpiry : List (String × Nat)
deriving Repr, DecidableEq

/-- `CACHE_TTL` (part_001 line 25): one hour in milliseconds. -/
def CACHE_TTL : Nat := 60 * 60 * 1000

/-- `ConfluenceClient.cacheSpace` (part_001 lines 348-352): store the
space under its key with expiry `now + CACHE_TTL`. -/
def cacheSpace (st : ClientState) (space : ConfluenceSpace) (now : Nat) : ClientState :=
  { spaceCache := (space.key, space) :: st.spaceCache
    spaceCacheExpiry := (space.key, now + CACHE_TTL) :: st.spaceCacheExpiry }

/-- `ConfluenceClient.isSpaceCacheValid` (part_001 lines 343-346): an
expiry entry exists and `Date.now()` is still strictly below it. -/
def isSpaceCacheValid (st : ClientState) (spaceKey : String) (now : Nat) : Bool :=
  match st.spaceCacheExpiry.lookup spaceKey with
  | some expiry => now < expiry
  | none => false

/-! ## Space listing and lookup -/

/-- A remote response page for `GET /spaces`: the raw results, the raw
`size` reported by the remote, and whether a `_links.next` cursor is
present. -/
structure SpacesPage where
  results : List ConfluenceSpace
  size : Nat
  next : Bool
deriving Repr, DecidableEq

/-- The paginated space listing returned to the caller. -/
structure SpacesResult where
  results : List ConfluenceSpace
  size : Nat
  next : Bool
deriving Repr, DecidableEq

/-- `ConfluenceClient.listSpaces` (part_001 lines 296-318): one
`GET /spaces` call; the raw results are filtered through the allowlist,
every surviving space is cached, and the response is spread through with
`results` and `size` overridden by the filtered list and its length. -/
def listSpaces (allowedSpaces : List String) (now : Nat) (st : ClientState)
    (page : SpacesPage) : SpacesResult × ClientState × List RemoteCall :=
  let filteredResults := page.results.filter (fun s => validateSpaceAccess s.key allowedSpaces)
  let st1 := filteredResults.foldl (fun acc s => cacheSpace acc s now) st
  ({ results := filteredResults, size := filteredResults.length, next := page.next },
   st1, [RemoteCall.get "/spaces"])

/-- The cursor-paginated lookup loop inside `getSpaceByKey` (part_001
lines 367-387): fetch a page via `listSpaces`, look for the key among the
(already filtered) results, stop when found or when the response carries
no next cursor. The remote's successive pages are supplied as a list. -/
def lookupSpaceLoop (allowedSpaces : List String) (spaceKey : String) (now : Nat) :
    List SpacesPage → ClientState → Option ConfluenceSpace × ClientState × List RemoteCall
  | [], st => (none, st, [])
  | page :: rest, st =>
    let fetched := listSpaces allowedSpaces now st page
    match fetched.1.results.find? (fun s => s.key == spaceKey) with
    | some sp => (some sp, fetched.2.1, fetched.2.2)
    | none =>
      if fetched.1.next then
        let remaining := lookupSpaceLoop allowedSpaces spaceKey now rest fetched.2.1
        (remaining.1, remaining.2.1, fetched.2.2 ++ remaining.2.2)
      else (none, fetched.2.1, fetched.2.2)

/-- `ConfluenceClient.getSpaceByKey` (part_001 lines 354-394): validate
the allowlist first; serve from the cache when the entry is within its
TTL; otherwise page through `listSpaces` until the key is found. -/
def getSpaceByKey (allowedSpaces : List String) (pages : List SpacesPage) (now : Nat)
    (st : ClientState) (spaceKey : String) :
    Except String ConfluenceSpace × ClientState × List RemoteCall :=
  if !validateSpaceAccess spaceKey allowedSpaces then
    (.error ("Access denied to space: " ++ spaceKey), st, [])
  else
    match (if isSpaceCacheValid st spaceKey now then st.spaceCache.lookup spaceKey else none) with
    | some cachedSpace => (.ok cachedSpace, st, [])
    | none =>
      match lookupSpaceLoop allowedSpaces spaceKey now pages st with
      | (some space, st1, calls) => (.ok space, st1, calls)
      | (none, st1, calls) => (.error ("Space not found: " ++ spaceKey), st1, calls)

/-- `ConfluenceClient.getSpaceById` (part_001 lines 320-341): serve from
the cache when some valid entry has the requested id; otherwise
`GET /spaces/id` (oracle `fetched` is its response), validate the returned
key against the allowlist, and cache. -/
def getSpaceById (allowedSpaces : List String) (fetched : ConfluenceSpace) (now : Nat)
    (st : ClientState) (spaceId : String) :
    Except String ConfluenceSpace × ClientState × List RemoteCall :=
  match st.spaceCache.find? (fun e => e.2.id == spaceId && isSpaceCacheValid st e.1 now) with
  | some e => (.ok e.2, st, [])
  | none =>
    if !validateSpaceAccess fetched.key allowedSpaces then
      (.error ("Access denied to space: " ++ fetched.key), st,
       [RemoteCall.get ("/spaces/" ++ spaceId)])
    else
      (.ok fetched, cacheSpace st fetched now, [RemoteCall.get ("/spaces/" ++ spaceId)])

/-! ## Page operations -/

/-- `ConfluenceClient.getPage` (part_001 lines 182-212): one v1 `GET` (the
oracle `fetched` is its response); the owning space key must be present
and non-empty, and is validated against the allowlist, before the page is
returned. -/
def getPage (allowedSpaces : List String) (fetched : ConfluencePage) (pageId : String) :
    Except String ConfluencePage × List RemoteCall :=
  let calls := [RemoteCall.get ("/wiki/rest/api/content/" ++ pageId)]
  match fetched.spaceKey with
  | none => (.error "Unable to determine page space for access validation", calls)
  | some k =>
    if k == "" then (.error "Unable to determine page space for access validation", calls)
    else if !validateSpaceAccess k allowedSpaces then
      (.error ("Access denied to space: " ++ k), calls)
    else (.ok fetched, calls)

/-- `ConfluenceClient.createPage` (part_001 lines 214-246): validate the
allowlist before any remote call; resolve the space id through
`getSpaceByKey`; reject an empty space id; then `POST /pages`. The oracle
`created` is the remote's response to the POST. -/
def createPage (allowedSpaces : List String) (pages : List SpacesPage) (now : Nat)
    (st : ClientState) (created : ConfluencePage)
    (spaceKey title content : String) (parentId : Option String) :
    Except String ConfluencePage × ClientState × List RemoteCall :=
  if !validateSpaceAccess spaceKey allowedSpaces then
    (.error ("Access denied to space: " ++ spaceKey), st, [])
  else
    match getSpaceByKey allowedSpaces pages now st spaceKey with
    | (.error e, st1, calls) => (.error e, st1, calls)
    | (.ok space, st1, calls) =>
      if space.id == "" then
        (.error ("Unable to get space ID for space: " ++ spaceKey), st1, calls)
      else (.ok created, st1, calls ++ [RemoteCall.post "/pages"])

/-- `ConfluenceClient.updatePage` (part_001 lines 248-280): re-fetch the
page (`getPage`, one GET), re-validate its owning space, then submit a
full replacement carrying the caller-supplied `version` via
`PUT /pages/id`. The oracle `putResult` is the remote's verdict on that
PUT (a stale version makes the remote reject it); it is returned
unchanged, with no retry. -/
def updatePage (allowedSpaces : List String) (fetched : ConfluencePage)
    (putResult : Except String ConfluencePage)
    (pageId title content : String) (version : Nat) :
    Except String ConfluencePage × List RemoteCall :=
  match getPage allowedSpaces fetched pageId with
  | (.error e, calls) => (.error e, calls)
  | (.ok currentPage, calls) =>
    match currentPage.spaceKey with
    | none => (.error "Unable to determine page space for access validation", calls)
    | some k =>
      if k == "" then (.error "Unable to determine page space for access validation", calls)
      else if !validateSpaceAccess k allowedSpaces then
        (.error ("Access denied to space: " ++ k), calls)
      else (putResult, calls ++ [RemoteCall.putPage pageId version])

/-- `ConfluenceClient.deletePage` (part_001 lines 282-294): re-fetch and
re-validate, then `DELETE /pages/id`. -/
def deletePage (allowedSpaces : List String) (fetched : ConfluencePage) (pageId : String) :
    Except String Unit × List RemoteCall :=
  match getPage allowedSpaces fetched pageId with
  | (.error e, calls) => (.error e, calls)
  | (.ok currentPage, calls) =>
    match currentPage.spaceKey with
    | none => (.error "Unable to determine page space for access validation", calls)
    | some k =>
      if k == "" then (.error "Unable to determine page space for access validation", calls)
      else if !validateSpaceAccess k allowedSpaces then
        (.error ("Access denied to space: " ++ k), calls)
      else (.ok (), calls ++ [RemoteCall.del ("/pages/" ++ pageId)])

/-- `ConfluenceClient.movePage` (part_001 lines 446-478): re-fetch the
page, validate the source space, then the target space, then `PUT` the
move payload carrying the re-fetched current version number. The oracle
`putResult` is the remote's verdict, returned unchanged. -/
def movePage (allowedSpaces : List String) (fetched : ConfluencePage)
    (putResult : Except String ConfluencePage)
    (pageId targetSpaceKey : String) (parentId : Option String) :
    Except String ConfluencePage × List RemoteCall :=
  match getPage allowedSpaces fetched pageId with
  | (.error e, calls) => (.error e, calls)
  | (.ok currentPage, calls) =>
    match currentPage.spaceKey with
    | none => (.error "Unable to determine page space for access validation", calls)
    | some k =>
      if k == "" then (.error "Unable to determine page space for access validation", calls)
      else if !validateSpaceAccess k allowedSpaces then
        (.error ("Access denied to source space: " ++ k), calls)
      else if !validateSpaceAccess targetSpaceKey allowedSpaces then
        (.error ("Access denied to target space: " ++ targetSpaceKey), calls)
      else (putResult, calls ++ [RemoteCall.putPage pageId currentPage.version])

/-! ## Search -/

/-- The v1 search response shape returned by `searchContent`. -/
structure SearchResult where
  content : List ConfluencePage
  start : Nat
  limit : Nat
  size : Nat
deriving Repr, DecidableEq

/-- The `searchConditions` array built by `searchContent` (part_001 lines
119-127): a `text ~` predicate when `query` is truthy, then a `title ~`
predicate when `title` is truthy. -/
def searchConditions (query title : Option String) : List String :=
  (if jsTruthy query then ["text ~ \"" ++ query.getD "" ++ "\""] else []) ++
    (if jsTruthy title then ["title ~ \"" ++ title.getD "" ++ "\""] else [])

/-- `ConfluenceClient.searchContent` (part_001 lines 107-180): build the
CQL conditions (falling back to `type = page` when both are absent), then
either validate the explicit `spaceKey` — raising the access-denied error
before any remote call — or restrict the query to the OR of all allowed
spaces; one v1 search `GET` (whose URL records the final CQL) returns the
oracle `remote`. -/
def searchContent (allowedSpaces : List String) (remote : SearchResult)
    (query spaceKey : Option String) (limit : Nat) (title : Option String)
    (start : Nat) (bodyFormat : Option String) :
    Except String SearchResult × List RemoteCall :=
  let conds := searchConditions query title
  let conds := if conds.isEmpty then ["type = page"] else conds
  let searchQuery := String.intercalate " AND " conds
  if jsTruthy spaceKey then
    let k := spaceKey.getD ""
    if !validateSpaceAccess k allowedSpaces then
      (.error ("Access denied to space: " ++ k), [])
    else
      (.ok remote,
       [RemoteCall.get ("search?cql=space = \"" ++ k ++ "\" AND " ++ searchQuery)])
  else
    let allowedSpacesCql := String.intercalate " OR "
      (allowedSpaces.map (fun space => "space = \"" ++ space ++ "\""))
    (.ok remote,
     [RemoteCall.get ("search?cql=(" ++ allowedSpacesCql ++ ") AND " ++ searchQuery)])

/-! ## Content listings with body enrichment -/

/-- The paginated page listing returned by the v2 API. -/
structure PagesResult where
  results : List ConfluencePage
  size : Nat
deriving Repr, DecidableEq

/-- One per-page body-enrichment fetch, i.e. the `try/catch` inside
`getSpaceContent`/`getPageChildren` (part_001 lines 415-437 and 504-527):
on success with a body present the body is attached; on a caught failure
the page is returned unchanged and a warning is printed only when the
debug flag is set. Returns the page and the warnings emitted. -/
def enrichPage (debug : Bool) (fetchBody : String → Except String (Option String))
    (page : ConfluencePage) : ConfluencePage × List String :=
  match fetchBody page.id with
  | .ok (some b) => ({ page with body := some b }, [])
  | .ok none => (page, [])
  | .error _ =>
      (page, if debug then ["Failed to retrieve body content for page " ++ page.id] else [])

/-- `ConfluenceClient.getSpaceContent` (part_001 lines 396-444): validate
the allowlist, `GET /pages` (oracle `remote`), and, when a body format was
requested and the listing is non-empty, fan out one v1 fetch per page
(oracle `fetchBody`), non-fatally. Returns the listing, the remote calls
issued, and the warnings printed. -/
def getSpaceContent (allowedSpaces : List String) (debug : Bool) (remote : PagesResult)
    (fetchBody : String → Except String (Option String))
    (spaceKey : String) (limit start : Nat) (bodyFormat : Option String) :
    Except String PagesResult × List RemoteCall × List String :=
  if !validateSpaceAccess spaceKey allowedSpaces then
    (.error ("Access denied to space: " ++ spaceKey), [], [])
  else
    let baseCalls := [RemoteCall.get "/pages"]
    if jsTruthy bodyFormat && !remote.results.isEmpty then
      let enriched := remote.results.map (enrichPage debug fetchBody)
      (.ok { remote with results := enriched.map Prod.fst },
       baseCalls ++ remote.results.map (fun p => RemoteCall.get ("/wiki/rest/api/content/" ++ p.id)),
       (enriched.map Prod.snd).flatten)
    else (.ok remote, baseCalls, [])

/-- `ConfluenceClient.getPageChildren` (part_001 lines 480-533): fetch the
parent page and validate its owning space, `GET /pages/id/children`
(oracle `remote`), then the same non-fatal body-enrichment fan-out as
`getSpaceContent`. -/
def getPageChildren (allowedSpaces : List String) (debug : Bool)
    (parentFetched : ConfluencePage) (remote : PagesResult)
    (fetchBody : String → Except String (Option String))
    (pageId : String) (limit start : Nat) (bodyFormat : Option String) :
    Except String PagesResult × List RemoteCall × List String :=
  match getPage allowedSpaces parentFetched pageId with
  | (.error e, calls) => (.error e, calls, [])
  | (.ok parentPage, calls) =>
    match parentPage.spaceKey with
    | none => (.error "Unable to determine page space for access validation", calls, [])
    | some k =>
      if k == "" then
        (.error "Unable to determine page space for access validation", calls, [])
      else if !validateSpaceAccess k allowedSpaces then
        (.error ("Access denied to space: " ++ k), calls, [])
      else
        let baseCalls := calls ++ [RemoteCall.get ("/pages/" ++ pageId ++ "/children")]
        if jsTruthy bodyFormat && !remote.results.isEmpty then
          let enriched := remote.results.map (enrichPage debug fetchBody)
          (.ok { remote with results := enriched.map Prod.fst },
           baseCalls ++
             remote.results.map (fun p => RemoteCall.get ("/wiki/rest/api/content/" ++ p.id)),
           (enriched.map Prod.snd).flatten)
        else (.ok remote, baseCalls, [])

/-! ## Tool dispatcher -/

/-- The `search_confluence` case of the tool dispatcher
(`src/src/index.ts` lines 390-414): at least one of `query`/`title` must
be truthy before `searchContent` is invoked. -/
def handleSearchConfluence (allowedSpaces : List String) (remote : SearchResult)
    (query title spaceKey : Option String) (limit start : Nat) (bodyFormat : Option String) :
    Except String SearchResult × List RemoteCall :=
  if !jsTruthy query && !jsTruthy title then
    (.error "At least one of \"query\" or \"title\" must be provided", [])
  else searchContent allowedSpaces remote query spaceKey limit title start bodyFormat

/-- The catch-all error wrapping of the tool dispatcher
(`src/src/index.ts` lines 582-593): the underlying message is embedded in
an operation-qualified `McpError` message. -/
def wrapToolError (name errorMessage : String) : String :=
  "Error executing " ++ name ++ ": " ++ errorMessage

/-! ## Helper lemmas -/

/-- Dropping fewer elements than the length preserves the last element. -/
theorem getLast?_drop_of_lt {α : Type} (l : List α) (n : Nat) (h : n < l.length) :
    (l.drop n).getLast? = l.getLast? := by
  induction l generalizing n with
  | nil => simp at h
  | cons a t ih =>
    cases n with
    | zero => rfl
    | succ m =>
      have hm : m < t.length := by simpa using h
      have ht : t ≠ [] := List.ne_nil_of_length_pos (Nat.lt_of_le_of_lt (Nat.zero_le m) hm)
      obtain ⟨b, t', rfl⟩ := List.exists_cons_of_ne_nil ht
      calc ((a :: b :: t').drop (m + 1)).getLast? = ((b :: t').drop m).getLast? := rfl
        _ = (b :: t').getLast? := ih m hm
        _ = (a :: b :: t').getLast? := List.getLast?_cons_cons.symm

/-! ## Claim theorems -/

/-- C2: `listSpaces` returns only spaces whose key is in the allowlist
(exact, case-sensitive membership), and the reported `size` is the count
after filtering — the filtered list's length — not the raw remote count. -/
theorem listSpaces_filters_and_reports_filtered_size (allowedSpaces : List String)
    (now : Nat) (st : ClientState) (page : SpacesPage) :
    (∀ sp ∈ (listSpaces allowedSpaces now st page).1.results,
        validateSpaceAccess sp.key allowedSpaces = true) ∧
    (listSpaces allowedSpaces now st page).1.size =
      (listSpaces allowedSpaces now st page).1.results.length ∧
    (listSpaces allowedSpaces now st page).1.results =
      page.results.filter (fun s => validateSpaceAccess s.key allowedSpaces) := by
  refine ⟨?_, rfl, rfl⟩
  intro sp hsp
  exact (List.mem_filter.mp hsp).2

/-- Witness for C2 at a concrete remote response: the space outside the
allowlist is filtered out and the key that survives is allowlisted. -/
theorem listSpaces_filters_witness :
    validateSpaceAccess "DEV" ["DEV"] = true :=
  (listSpaces_filters_and_reports_filtered_size ["DEV"] 0 ⟨[], []⟩
      ⟨[⟨"1", "DEV", "Dev"⟩, ⟨"2", "SECRET", "Secret"⟩], 2, false⟩).1
    ⟨"1", "DEV", "Dev"⟩ (by decide)

/-- C7: a `search_confluence` call supplying neither `query` nor `title`
fails with the validation error in the dispatcher and issues no remote
call (empty trace). -/
theorem searchConfluence_requires_query_or_title (allowedSpaces : List String)
    (remote : SearchResult) (spaceKey : Option String) (limit start : Nat)
    (bodyFormat : Option String) :
    handleSearchConfluence allowedSpaces remote none none spaceKey limit start bodyFormat =
      (.error "At least one of \"query\" or \"title\" must be provided", []) := rfl

/-- C9: `logRequest` copies the query-parameter object into the log entry
verbatim — an object payload is untouched, and in particular a secret
under an `apiToken` query param still occurs in the logged `params` —
while only the request body `data` is run through `sanitizeData`. -/
theorem logRequest_params_verbatim (timestamp method url : String)
    (fields : List (String × JsonVal)) (data : Option JsonVal) (d : JsonVal)
    (p : Option JsonVal) :
    (logRequestEntry timestamp method url (some (JsonVal.obj fields)) data).params =
      JsonVal.obj fields ∧
    (logRequestEntry timestamp method url p (some d)).data =
      (if jsFalsyJson d then none else some (sanitizeData d)) ∧
    containsStrVal "s3cr3t-value"
      ((logRequestEntry timestamp method url
          (some (JsonVal.obj [("apiToken", JsonVal.str "s3cr3t-value")])) data).params) = true ∧
    containsStrVal "s3cr3t-value"
      (sanitizeData (JsonVal.obj [("apiToken", JsonVal.str "s3cr3t-value")])) = false := by
  refine ⟨?_, rfl, rfl, rfl⟩
  simp [logRequestEntry, jsFalsyJson]

/-- C10: the trimming step keeps a suffix of the original line sequence —
exactly floor(n/2) trailing lines when the split has n ≥ 2 lines, the
whole sequence when n ≤ 1 (JS `slice(-0)` keeps everything) — never
reordering and never dropping the last line; and a file at or below the
size threshold is not rewritten at all. -/
theorem trimLines_keeps_trailing_half (lines : List String) (size maxB : Nat)
    (content : String) :
    List.IsSuffix (trimLines lines) lines ∧
    (2 ≤ lines.length → (trimLines lines).length = lines.length / 2) ∧
    (lines.length ≤ 1 → trimLines lines = lines) ∧
    (lines ≠ [] → (trimLines lines).getLast? = lines.getLast?) ∧
    (size ≤ maxB → checkAndTrimLogFile size maxB content = content) := by
  refine ⟨?_, ?_, ?_, ?_, ?_⟩
  · unfold trimLines
    by_cases h : lines.length / 2 = 0
    · simp [h]
    · simp only [h, if_false]
      exact ⟨lines.take (lines.length - lines.length / 2), List.take_append_drop _ _⟩
  · intro h2
    have hk : lines.length / 2 ≠ 0 := by
      have : 1 ≤ lines.length / 2 := Nat.le_div_iff_mul_le (by norm_num) |>.mpr (by omega)
      omega
    unfold trimLines
    simp only [hk, if_false]
    rw [List.length_drop]
    exact Nat.sub_sub_self (Nat.div_le_self _ _)
  · intro h1
    have hk : lines.length / 2 = 0 := Nat.div_eq_of_lt (by omega)
    unfold trimLines
    simp [hk]
  · intro hne
    unfold trimLines
    by_cases h : lines.length / 2 = 0
    · simp [h]
    · simp only [h, if_false]
      refine getLast?_drop_of_lt _ _ ?_
      have hpos : 0 < lines.length := List.length_pos.mpr hne
      have hle : lines.length / 2 ≤ lines.length := Nat.div_le_self _ _
      omega
  · intro hle
    unfold checkAndTrimLogFile
    simp [Nat.not_lt.mpr hle]

/-- Witness for C10 on a concrete four-line sequence: the trimmed file
keeps the trailing two lines, including the most recent one. -/
theorem trimLines_keeps_trailing_half_witness :
    (trimLines ["a", "b", "c", "d"]).length = 2 ∧
    trimLines ["a", "b", "c", "d"] = ["c", "d"] ∧
    (trimLines ["a", "b", "c", "d"]).getLast? = some "d" := by
  refine ⟨?_, by decide, ?_⟩
  · exact (trimLines_keeps_trailing_half ["a", "b", "c", "d"] 0 0 "").2.1 (by decide)
  · have h := (trimLines_keeps_trailing_half ["a", "b", "c", "d"] 0 0 "").2.2.2.1
      (by decide)
    simpa using h

mutual
/-- After `removeSensitiveFields` no sensitive-named field, at any depth,
holds anything but the redaction marker. -/
theorem noExposed_remove (v : JsonVal) :
    noExposedSensitive (removeSensitiveFields v) = true :=
  match v with
  | .null => rfl
  | .bool _ => rfl
  | .num _ => rfl
  | .str _ => rfl
  | .arr elems => by
      simpa [removeSensitiveFields, noExposedSensitive] using noExposed_removeArr elems
  | .obj fields => by
      simpa [removeSensitiveFields, noExposedSensitive] using noExposed_removeFields fields

/-- `noExposed_remove`, over an object's field list. -/
theorem noExposed_removeFields (l : List (String × JsonVal)) :
    noExposedFields (removeFromFields l) = true :=
  match l with
  | [] => rfl
  | (k, v) :: rest => by
      show noExposedFields
        ((if isSensitiveKey k then (k, JsonVal.str "[REDACTED]")
          else (k, removeSensitiveFields v)) :: removeFromFields rest) = true
      by_cases h : isSensitiveKey k
      · rw [if_pos h]
        simp [noExposedFields, isRedactedMarker, noExposedSensitive,
          noExposed_removeFields rest]
      · rw [if_neg h]
        simp [noExposedFields, h, noExposed_remove v, noExposed_removeFields rest]

/-- `noExposed_remove`, over an array's element list. -/
theorem noExposed_removeArr (l : List JsonVal) :
    noExposedArr (removeFromArr l) = true :=
  match l with
  | [] => rfl
  | v :: rest => by
      simp [removeFromArr, noExposedArr, noExposed_remove v, noExposed_removeArr rest]
end

/-- C3: sanitization redacts, at every nesting depth, every field whose
name contains a sensitive substring; the `data` payload of a logged
request entry therefore never exposes such a field; and concretely an
`apiToken` field is replaced by the redaction marker, its secret no longer
occurring anywhere in the sanitized payload. -/
theorem sanitizeData_redacts_sensitive (d : JsonVal) (timestamp method url : String)
    (p : Option JsonVal) :
    noExposedSensitive (sanitizeData d) = true ∧
    (∀ v, (logRequestEntry timestamp method url p (some d)).data = some v →
        noExposedSensitive v = true) ∧
    sanitizeData (JsonVal.obj
        [("apiToken", JsonVal.str "s3cr3t-value"), ("page", JsonVal.str "Home")]) =
      JsonVal.obj
        [("apiToken", JsonVal.str "[REDACTED]"), ("page", JsonVal.str "Home")] ∧
    containsStrVal "s3cr3t-value" (sanitizeData (JsonVal.obj
        [("apiToken", JsonVal.str "s3cr3t-value"), ("page", JsonVal.str "Home")])) = false := by
  have hmain : ∀ w : JsonVal, noExposedSensitive (sanitizeData w) = true := by
    intro w
    unfold sanitizeData
    by_cases h : jsFalsyJson w
    · cases w <;> simp_all [jsFalsyJson, noExposedSensitive]
    · simp [h, noExposed_remove w]
  refine ⟨hmain d, ?_, rfl, rfl⟩
  intro v hv
  unfold logRequestEntry at hv
  by_cases h : jsFalsyJson d
  · simp [h] at hv
  · simp only [h, if_false] at hv
    cases hv
    exact hmain d

/-- Witness for C3: applying the theorem to the concrete `apiToken`
payload shows the logged `data` exposes no sensitive field. -/
theorem sanitizeData_redacts_sensitive_witness :
    noExposedSensitive
      (sanitizeData (JsonVal.obj [("apiToken", JsonVal.str "s3cr3t-value")])) = true :=
  (sanitizeData_redacts_sensitive (JsonVal.obj [("apiToken", JsonVal.str "s3cr3t-value")])
      "2024-01-01T00:00:00Z" "get" "/spaces" none).2.1
    (sanitizeData (JsonVal.obj [("apiToken", JsonVal.str "s3cr3t-value")])) rfl

/-- C1: for a space key outside the allowlist, every space-scoped
operation returns the access-denied error naming the space; `createPage`,
`getSpaceContent`, `getSpaceByKey` and a space-restricted `searchContent`
issue no remote call at all, while `updatePage`/`deletePage`/`movePage`,
whose page resolves (via one GET) to a disallowed owning space, issue no
mutating call; `movePage` also denies when only the target space is
disallowed. -/
theorem access_denied_outside_allowlist
    (allowedSpaces : List String) (spaceKey : String)
    (hkey : validateSpaceAccess spaceKey allowedSpaces = false) (hne : spaceKey ≠ "")
    (pages : List SpacesPage) (now : Nat) (st : ClientState)
    (created fetched srcFetched : ConfluencePage)
    (title content pageId : String) (version : Nat) (parentId : Option String)
    (remote : SearchResult) (query titleOpt : Option String)
    (limit start : Nat) (bodyFormat : Option String)
    (debug : Bool) (pagesRemote : PagesResult)
    (fetchBody : String → Except String (Option String))
    (putResult : Except String ConfluencePage)
    (hfetched : fetched.spaceKey = some spaceKey)
    (srcKey : String) (hsrc : srcFetched.spaceKey = some srcKey) (hsrcne : srcKey ≠ "")
    (hsrcAllowed : validateSpaceAccess srcKey allowedSpaces = true) :
    createPage allowedSpaces pages now st created spaceKey title content parentId =
      (.error ("Access denied to space: " ++ spaceKey), st, []) ∧
    getSpaceContent allowedSpaces debug pagesRemote fetchBody spaceKey limit start bodyFormat =
      (.error ("Access denied to space: " ++ spaceKey), [], []) ∧
    getSpaceByKey allowedSpaces pages now st spaceKey =
      (.error ("Access denied to space: " ++ spaceKey), st, []) ∧
    searchContent allowedSpaces remote query (some spaceKey) limit titleOpt start bodyFormat =
      (.error ("Access denied to space: " ++ spaceKey), []) ∧
    updatePage allowedSpaces fetched putResult pageId title content version =
      (.error ("Access denied to space: " ++ spaceKey),
       [RemoteCall.get ("/wiki/rest/api/content/" ++ pageId)]) ∧
    deletePage allowedSpaces fetched pageId =
      (.error ("Access denied to space: " ++ spaceKey),
       [RemoteCall.get ("/wiki/rest/api/content/" ++ pageId)]) ∧
    movePage allowedSpaces fetched putResult pageId srcKey parentId =
      (.error ("Access denied to space: " ++ spaceKey),
       [RemoteCall.get ("/wiki/rest/api/content/" ++ pageId)]) ∧
    movePage allowedSpaces srcFetched putResult pageId spaceKey parentId =
      (.error ("Access denied to target space: " ++ spaceKey),
       [RemoteCall.get ("/wiki/rest/api/content/" ++ pageId)]) ∧
    ((updatePage allowedSpaces fetched putResult pageId title content version).2.all
        (fun c => !c.isMutating) = true) ∧
    ((movePage allowedSpaces srcFetched putResult pageId spaceKey parentId).2.all
        (fun c => !c.isMutating) = true) := by
  have hbne : (spaceKey == "") = false := beq_eq_false_iff_ne.mpr hne
  have hsbne : (srcKey == "") = false := beq_eq_false_iff_ne.mpr hsrcne
  have hc : createPage allowedSpaces pages now st created spaceKey title content parentId =
      (.error ("Access denied to space: " ++ spaceKey), st, []) := by
    unfold createPage
    simp [hkey]
  have hgp : getPage allowedSpaces fetched pageId =
      (.error ("Access denied to space: " ++ spaceKey),
       [RemoteCall.get ("/wiki/rest/api/content/" ++ pageId)]) := by
    unfold getPage
    rw [hfetched]
    simp [hbne, hkey]
  have hgpSrc : getPage allowedSpaces srcFetched pageId =
      (.ok srcFetched, [RemoteCall.get ("/wiki/rest/api/content/" ++ pageId)]) := by
    unfold getPage
    rw [hsrc]
    simp [hsbne, hsrcAllowed]
  have hu : updatePage allowedSpaces fetched putResult pageId title content version =
      (.error ("Access denied to space: " ++ spaceKey),
       [RemoteCall.get ("/wiki/rest/api/content/" ++ pageId)]) := by
    unfold updatePage
    rw [hgp]
  have hmTarget : movePage allowedSpaces srcFetched putResult pageId spaceKey parentId =
      (.error ("Access denied to target space: " ++ spaceKey),
       [RemoteCall.get ("/wiki/rest/api/content/" ++ pageId)]) := by
    unfold movePage
    rw [hgpSrc]
    simp only [hsrc]
    simp [hsbne, hsrcAllowed, hkey]
  refine ⟨hc, ?_, ?_, ?_, hu, ?_, ?_, hmTarget, ?_, ?_⟩
  · unfold getSpaceContent
    simp [hkey]
  · unfold getSpaceByKey
    simp [hkey]
  · unfold searchContent
    simp [jsTruthy, hne, Option.getD, hkey]
  · unfold deletePage
    rw [hgp]
  · unfold movePage
    rw [hgp]
  · rw [hu]
    simp [RemoteCall.isMutating]
  · rw [hmTarget]
    simp [RemoteCall.isMutating]

/-- Witness for C1: the concrete allowlist is `DEV` and the denied key is
`SECRET`; the denied page-creation call mutates nothing. -/
theorem access_denied_outside_allowlist_witness :
    createPage ["DEV"] [] 0 ⟨[], []⟩ ⟨"c", "t", some "DEV", 1, none⟩
        "SECRET" "Title" "Body" none =
      (.error ("Access denied to space: " ++ "SECRET"), ⟨[], []⟩, []) ∧
    movePage ["DEV"] ⟨"p1", "Home", some "DEV", 4, none⟩ (.ok ⟨"p1", "Home", some "DEV", 5, none⟩)
        "p1" "SECRET" none =
      (.error ("Access denied to target space: " ++ "SECRET"),
       [RemoteCall.get ("/wiki/rest/api/content/" ++ "p1")]) := by
  have h := access_denied_outside_allowlist ["DEV"] "SECRET" (by decide) (by decide)
    [] 0 ⟨[], []⟩ ⟨"c", "t", some "DEV", 1, none⟩ ⟨"px", "T", some "SECRET", 2, none⟩
    ⟨"p1", "Home", some "DEV", 4, none⟩ "Title" "Body" "p1" 1 none
    ⟨[], 0, 25, 0⟩ none none 25 0 none false ⟨[], 0⟩ (fun _ => .error "e")
    (.ok ⟨"p1", "Home", some "DEV", 5, none⟩) rfl "DEV" rfl (by decide) (by decide)
  exact ⟨h.1, h.2.2.2.2.2.2.2.1⟩

/-- C4: a stale-version `updatePage` still submits the caller-supplied
version number, `movePage` submits the re-fetched current version, the
remote's conflict rejection is returned as the error unchanged with
exactly one mutating call in the trace (no auto-fetch-and-retry), and the
dispatcher's wrapper keeps the conflict message intact as a suffix. -/
theorem version_conflict_surfaced (allowedSpaces : List String)
    (fetched : ConfluencePage) (k : String)
    (hk : fetched.spaceKey = some k) (hne : k ≠ "")
    (hallow : validateSpaceAccess k allowedSpaces = true)
    (pageId title content : String) (version : Nat)
    (hstale : version < fetched.version) (conflictMsg : String) :
    updatePage allowedSpaces fetched (.error conflictMsg) pageId title content version =
      (.error conflictMsg,
       [RemoteCall.get ("/wiki/rest/api/content/" ++ pageId),
        RemoteCall.putPage pageId version]) ∧
    movePage allowedSpaces fetched (.error conflictMsg) pageId k none =
      (.error conflictMsg,
       [RemoteCall.get ("/wiki/rest/api/content/" ++ pageId),
        RemoteCall.putPage pageId fetched.version]) ∧
    ((updatePage allowedSpaces fetched (.error conflictMsg) pageId title content
        version).2.filter (fun c => c.isMutating)).length = 1 ∧
    wrapToolError "update_page" conflictMsg = "Error executing update_page: " ++ conflictMsg := by
  have hbne : (k == "") = false := beq_eq_false_iff_ne.mpr hne
  have hgp : getPage allowedSpaces fetched pageId =
      (.ok fetched, [RemoteCall.get ("/wiki/rest/api/content/" ++ pageId)]) := by
    unfold getPage
    rw [hk]
    simp [hbne, hallow]
  have hu : updatePage allowedSpaces fetched (.error conflictMsg) pageId title content version =
      (.error conflictMsg,
       [RemoteCall.get ("/wiki/rest/api/content/" ++ pageId),
        RemoteCall.putPage pageId version]) := by
    unfold updatePage
    rw [hgp]
    simp only [hk]
    simp [hbne, hallow]
  refine ⟨hu, ?_, ?_, rfl⟩
  · unfold movePage
    rw [hgp]
    simp only [hk]
    simp [hbne, hallow]
  · rw [hu]
    simp [RemoteCall.isMutating]

/-- Witness for C4: a concrete stale update (version 3 against current
version 5) surfaces the remote conflict message unchanged. -/
theorem version_conflict_surfaced_witness :
    updatePage ["DEV"] ⟨"p1", "Home", some "DEV", 5, none⟩
        (.error "Conflict: version mismatch") "p1" "Home" "new" 3 =
      (.error "Conflict: version mismatch",
       [RemoteCall.get ("/wiki/rest/api/content/" ++ "p1"),
        RemoteCall.putPage "p1" 3]) :=
  (version_conflict_surfaced ["DEV"] ⟨"p1", "Home", some "DEV", 5, none⟩ "DEV"
      rfl (by decide) (by decide) "p1" "Home" "new" 3 (by decide)
      "Conflict: version mismatch").1

/-! ## Cache invariant lemmas (for the allowlist invariant and the TTL) -/

/-- The space-cache invariant: every cached entry is stored under its
space's own key and that key passes the allowlist. -/
def cacheAllowed (allowedSpaces : List String) (st : ClientState) : Prop :=
  ∀ e ∈ st.spaceCache, e.1 = e.2.key ∧ validateSpaceAccess e.2.key allowedSpaces = true

/-- `cacheSpace` preserves the invariant when the stored space is
allowlisted. -/
theorem cacheAllowed_cacheSpace (allowedSpaces : List String) (st : ClientState)
    (sp : ConfluenceSpace) (now : Nat) (hst : cacheAllowed allowedSpaces st)
    (hsp : validateSpaceAccess sp.key allowedSpaces = true) :
    cacheAllowed allowedSpaces (cacheSpace st sp now) := by
  intro e he
  rcases List.mem_cons.mp he with h | h
  · subst h
    exact ⟨rfl, hsp⟩
  · exact hst e h

/-- Folding `cacheSpace` over a list of allowlisted spaces preserves the
invariant. -/
theorem cacheAllowed_foldl (allowedSpaces : List String) (now : Nat)
    (l : List ConfluenceSpace) (st : ClientState) (hst : cacheAllowed allowedSpaces st)
    (hl : ∀ s ∈ l, validateSpaceAccess s.key allowedSpaces = true) :
    cacheAllowed allowedSpaces (l.foldl (fun acc s => cacheSpace acc s now) st) := by
  induction l generalizing st with
  | nil => exact hst
  | cons h t ih =>
    exact ih (cacheSpace st h now)
      (cacheAllowed_cacheSpace _ _ _ _ hst (hl h (List.mem_cons_self _ _)))
      (fun s hs => hl s (List.mem_cons_of_mem _ hs))

/-- `listSpaces` caches only results that survived the allowlist filter. -/
theorem cacheAllowed_listSpaces (allowedSpaces : List String) (now : Nat)
    (st : ClientState) (page : SpacesPage) (hst : cacheAllowed allowedSpaces st) :
    cacheAllowed allowedSpaces (listSpaces allowedSpaces now st page).2.1 := by
  unfold listSpaces
  exact cacheAllowed_foldl _ _ _ _ hst (fun s hs => (List.mem_filter.mp hs).2)

/-- The by-key lookup loop touches the cache only through `listSpaces`,
so it preserves the invariant. -/
theorem cacheAllowed_lookupSpaceLoop (allowedSpaces : List String) (key : String)
    (now : Nat) (pages : List SpacesPage) (st : ClientState)
    (hst : cacheAllowed allowedSpaces st) :
    cacheAllowed allowedSpaces (lookupSpaceLoop allowedSpaces key now pages st).2.1 := by
  induction pages generalizing st with
  | nil => exact hst
  | cons p rest ih =>
    have hls := cacheAllowed_listSpaces allowedSpaces now st p hst
    unfold lookupSpaceLoop
    cases hfind : (listSpaces allowedSpaces now st p).1.results.find?
        (fun s => s.key == key) with
    | some sp => simpa [hfind] using hls
    | none =>
      by_cases hnext : (listSpaces allowedSpaces now st p).1.next
      · simpa [hfind, hnext] using ih _ hls
      · simpa [hfind, hnext] using hls

/-- A space found by the lookup loop came out of the allowlist filter. -/
theorem lookupSpaceLoop_found_allowed (allowedSpaces : List String) (key : String)
    (now : Nat) (pages : List SpacesPage) (st : ClientState)
    (sp : ConfluenceSpace) (st' : ClientState) (calls : List RemoteCall)
    (h : lookupSpaceLoop allowedSpaces key now pages st = (some sp, st', calls)) :
    validateSpaceAccess sp.key allowedSpaces = true := by
  induction pages generalizing st st' calls with
  | nil => simp [lookupSpaceLoop] at h
  | cons p rest ih =>
    unfold lookupSpaceLoop at h
    cases hfind : (listSpaces allowedSpaces now st p).1.results.find?
        (fun s => s.key == key) with
    | some found =>
      simp only [hfind] at h
      have hmem := List.mem_of_find?_eq_some hfind
      have hsp : found = sp := by simpa using congrArg Prod.fst h
      subst hsp
      exact (List.mem_filter.mp hmem).2
    | none =>
      simp only [hfind] at h
      by_cases hnext : (listSpaces allowedSpaces now st p).1.next
      · simp only [hnext, if_true] at h
        have h1 : (lookupSpaceLoop allowedSpaces key now rest
            (listSpaces allowedSpaces now st p).2.1).1 = some sp := by
          simpa using congrArg Prod.fst h
        have hLe : lookupSpaceLoop allowedSpaces key now rest
            (listSpaces allowedSpaces now st p).2.1 =
            (some sp,
             (lookupSpaceLoop allowedSpaces key now rest
               (listSpaces allowedSpaces now st p).2.1).2.1,
             (lookupSpaceLoop allowedSpaces key now rest
               (listSpaces allowedSpaces now st p).2.1).2.2) := by
          rw [← h1]
        exact ih _ _ _ hLe
      · simp only [hnext, if_false] at h
        simp at h

/-- A successful association-list lookup exposes a member of the list. -/
theorem lookup_mem {β : Type} (key : String) (l : List (String × β)) (v : β)
    (h : List.lookup key l = some v) : (key, v) ∈ l := by
  induction l with
  | nil => simp [List.lookup] at h
  | cons e t ih =>
    obtain ⟨k, b⟩ := e
    simp only [List.lookup] at h
    cases hbeq : key == k with
    | true =>
      rw [hbeq] at h
      have hk : key = k := eq_of_beq hbeq
      have hv : b = v := by simpa using h
      subst hk
      subst hv
      exact List.mem_cons_self _ _
    | false =>
      rw [hbeq] at h
      exact List.mem_cons_of_mem _ (ih h)

/-- C8: the space-cache invariant — every entry is stored under an
allowlisted key — is preserved by `listSpaces` (which caches only
filtered results), by `getSpaceByKey` (which writes only through
`listSpaces`) and by `getSpaceById` (which validates before caching);
consequently any space those lookups return, cached or fresh, is
allowlisted. -/
theorem space_cache_allowlist_invariant (allowedSpaces : List String)
    (now : Nat) (st : ClientState) (page : SpacesPage) (pages : List SpacesPage)
    (fetchedSpace : ConfluenceSpace) (spaceId spaceKey : String)
    (hst : cacheAllowed allowedSpaces st) :
    cacheAllowed allowedSpaces (listSpaces allowedSpaces now st page).2.1 ∧
    cacheAllowed allowedSpaces (getSpaceByKey allowedSpaces pages now st spaceKey).2.1 ∧
    cacheAllowed allowedSpaces (getSpaceById allowedSpaces fetchedSpace now st spaceId).2.1 ∧
    (∀ sp, (getSpaceByKey allowedSpaces pages now st spaceKey).1 = .ok sp →
        validateSpaceAccess sp.key allowedSpaces = true) ∧
    (∀ sp, (getSpaceById allowedSpaces fetchedSpace now st spaceId).1 = .ok sp →
        validateSpaceAccess sp.key allowedSpaces = true) := by
  have hbykey :
      cacheAllowed allowedSpaces (getSpaceByKey allowedSpaces pages now st spaceKey).2.1 ∧
      (∀ sp, (getSpaceByKey allowedSpaces pages now st spaceKey).1 = .ok sp →
        validateSpaceAccess sp.key allowedSpaces = true) := by
    unfold getSpaceByKey
    by_cases hv : validateSpaceAccess spaceKey allowedSpaces
    · simp only [hv, Bool.not_true, Bool.false_eq_true, if_false]
      cases hcache : (if isSpaceCacheValid st spaceKey now then
          st.spaceCache.lookup spaceKey else none) with
      | some cachedSpace =>
        refine ⟨hst, ?_⟩
        intro sp hsp
        have hc : cachedSpace = sp := by simpa using hsp
        subst hc
        have hmem : (spaceKey, cachedSpace) ∈ st.spaceCache := by
          by_cases hvalid : isSpaceCacheValid st spaceKey now
          · rw [if_pos hvalid] at hcache
            exact lookup_mem _ _ _ hcache
          · rw [if_neg hvalid] at hcache
            exact absurd hcache (by simp)
        exact (hst _ hmem).2
      | none =>
        rcases hloop : lookupSpaceLoop allowedSpaces spaceKey now pages st
          with ⟨r, st1, calls⟩
        cases r with
        | some space =>
          refine ⟨?_, ?_⟩
          · have := cacheAllowed_lookupSpaceLoop allowedSpaces spaceKey now pages st hst
            rw [hloop] at this
            simpa using this
          · intro sp hsp
            have hs : space = sp := by simpa using hsp
            subst hs
            exact lookupSpaceLoop_found_allowed _ _ _ _ _ _ _ _ hloop
        | none =>
          refine ⟨?_, ?_⟩
          · have := cacheAllowed_lookupSpaceLoop allowedSpaces spaceKey now pages st hst
            rw [hloop] at this
            simpa using this
          · intro sp hsp
            simp at hsp
    · have hvf : validateSpaceAccess spaceKey allowedSpaces = false :=
        Bool.not_eq_true _ ▸ Bool.of_not_eq_true hv
      simp only [hvf, Bool.not_false, if_true]
      exact ⟨hst, fun sp hsp => by simp at hsp⟩
  have hbyid :
      cacheAllowed allowedSpaces (getSpaceById allowedSpaces fetchedSpace now st spaceId).2.1 ∧
      (∀ sp, (getSpaceById allowedSpaces fetchedSpace now st spaceId).1 = .ok sp →
        validateSpaceAccess sp.key allowedSpaces = true) := by
    unfold getSpaceById
    cases hfind : st.spaceCache.find?
        (fun e => e.2.id == spaceId && isSpaceCacheValid st e.1 now) with
    | some e =>
      simp only [hfind]
      refine ⟨hst, ?_⟩
      intro sp hsp
      have he : e.2 = sp := by simpa using hsp
      subst he
      exact (hst _ (List.mem_of_find?_eq_some hfind)).2
    | none =>
      simp only [hfind]
      by_cases hv : validateSpaceAccess fetchedSpace.key allowedSpaces
      · simp only [hv, Bool.not_true, Bool.false_eq_true, if_false]
        refine ⟨cacheAllowed_cacheSpace _ _ _ _ hst hv, ?_⟩
        intro sp hsp
        have : fetchedSpace = sp := by simpa using hsp
        subst this
        exact hv
      · have hvf : validateSpaceAccess fetchedSpace.key allowedSpaces = false :=
          Bool.not_eq_true _ ▸ Bool.of_not_eq_true hv
        simp only [hvf, Bool.not_false, if_true]
        exact ⟨hst, fun sp hsp => by simp at hsp⟩
  exact ⟨cacheAllowed_listSpaces allowedSpaces now st page hst,
    hbykey.1, hbyid.1, hbykey.2, hbyid.2⟩

/-- Witness for C8: starting from the empty cache, a `listSpaces` call on
a mixed remote response leaves only allowlisted entries cached. -/
theorem space_cache_allowlist_invariant_witness :
    cacheAllowed ["DEV"]
      (listSpaces ["DEV"] 0 ⟨[], []⟩
        ⟨[⟨"1", "DEV", "Dev"⟩, ⟨"2", "SECRET", "Secret"⟩], 2, false⟩).2.1 :=
  (space_cache_allowlist_invariant ["DEV"] 0 ⟨[], []⟩
      ⟨[⟨"1", "DEV", "Dev"⟩, ⟨"2", "SECRET", "Secret"⟩], 2, false⟩ [] ⟨"1", "DEV", "Dev"⟩
      "1" "DEV" (fun e he => by simp at he)).1

/-- The components of a `listSpaces` result, unfolded. -/
theorem listSpaces_components (allowedSpaces : List String) (now : Nat) (st : ClientState)
    (page : SpacesPage) :
    (listSpaces allowedSpaces now st page).1.results =
      page.results.filter (fun s => validateSpaceAccess s.key allowedSpaces) ∧
    (listSpaces allowedSpaces now st page).2.1 =
      (page.results.filter (fun s => validateSpaceAccess s.key allowedSpaces)).foldl
        (fun acc s => cacheSpace acc s now) st ∧
    (listSpaces allowedSpaces now st page).2.2 = [RemoteCall.get "/spaces"] :=
  ⟨rfl, rfl, rfl⟩

/-- Folding `cacheSpace` writes expiry `now + CACHE_TTL` for exactly the
keys of the folded spaces, leaving other expiry lookups unchanged. -/
theorem foldl_cacheSpace_expiry (now : Nat) (key : String) (l : List ConfluenceSpace)
    (st : ClientState) :
    (l.foldl (fun acc s => cacheSpace acc s now) st).spaceCacheExpiry.lookup key =
      (if l.any (fun s => s.key == key) then some (now + CACHE_TTL)
       else st.spaceCacheExpiry.lookup key) := by
  induction l generalizing st with
  | nil => simp
  | cons h t ih =>
    simp only [List.foldl_cons, List.any_cons]
    rw [ih]
    by_cases hany : t.any (fun s => s.key == key)
    · simp [hany]
    · by_cases hk : h.key = key
      · subst hk
        simp [hany, cacheSpace, List.lookup]
      · have h1 : (h.key == key) = false := beq_eq_false_iff_ne.mpr hk
        have h2 : (key == h.key) = false := beq_eq_false_iff_ne.mpr (Ne.symm hk)
        simp [hany, h1, h2, cacheSpace, List.lookup]

/-- Folding `cacheSpace` makes the cache lookup succeed for exactly the
folded keys plus whatever was already cached. -/
theorem foldl_cacheSpace_lookup (now : Nat) (key : String) (l : List ConfluenceSpace)
    (st : ClientState) :
    ((l.foldl (fun acc s => cacheSpace acc s now) st).spaceCache.lookup key).isSome =
      (l.any (fun s => s.key == key) || (st.spaceCache.lookup key).isSome) := by
  induction l generalizing st with
  | nil => simp
  | cons h t ih =>
    simp only [List.foldl_cons, List.any_cons]
    rw [ih]
    by_cases hany : t.any (fun s => s.key == key)
    · simp [hany]
    · by_cases hk : h.key = key
      · subst hk
        simp [hany, cacheSpace, List.lookup]
      · have h1 : (h.key == key) = false := beq_eq_false_iff_ne.mpr hk
        have h2 : (key == h.key) = false := beq_eq_false_iff_ne.mpr (Ne.symm hk)
        simp [hany, h1, h2, cacheSpace, List.lookup]

/-- When the by-key lookup loop finds the space, the final state holds a
cache entry for the key whose expiry is `now + CACHE_TTL`. -/
theorem lookupSpaceLoop_found_caches (allowedSpaces : List String) (key : String)
    (now : Nat) (pages : List SpacesPage) (st : ClientState)
    (sp : ConfluenceSpace) (st' : ClientState) (calls : List RemoteCall)
    (h : lookupSpaceLoop allowedSpaces key now pages st = (some sp, st', calls)) :
    st'.spaceCacheExpiry.lookup key = some (now + CACHE_TTL) ∧
    (st'.spaceCache.lookup key).isSome = true := by
  induction pages generalizing st st' calls with
  | nil => simp [lookupSpaceLoop] at h
  | cons p rest ih =>
    unfold lookupSpaceLoop at h
    cases hfind : (listSpaces allowedSpaces now st p).1.results.find?
        (fun s => s.key == key) with
    | some found =>
      simp only [hfind] at h
      have hst' : (listSpaces allowedSpaces now st p).2.1 = st' := by
        simpa using congrArg (fun x => x.2.1) h
      have hmem : found ∈ (listSpaces allowedSpaces now st p).1.results :=
        List.mem_of_find?_eq_some hfind
      have hkeyb : (found.key == key) = true := by simpa using List.find?_some hfind
      have hany : ((listSpaces allowedSpaces now st p).1.results.any
          (fun s => s.key == key)) = true :=
        List.any_eq_true.mpr ⟨found, hmem, hkeyb⟩
      rw [(listSpaces_components allowedSpaces now st p).1] at hany
      rw [← hst', (listSpaces_components allowedSpaces now st p).2.1]
      constructor
      · rw [foldl_cacheSpace_expiry]
        simp [hany]
      · rw [foldl_cacheSpace_lookup]
        simp [hany]
    | none =>
      simp only [hfind] at h
      by_cases hnext : (listSpaces allowedSpaces now st p).1.next
      · simp only [hnext, if_true] at h
        have h1 : (lookupSpaceLoop allowedSpaces key now rest
            (listSpaces allowedSpaces now st p).2.1).1 = some sp := by
          simpa using congrArg Prod.fst h
        have h2 : (lookupSpaceLoop allowedSpaces key now rest
            (listSpaces allowedSpaces now st p).2.1).2.1 = st' := by
          simpa using congrArg (fun x => x.2.1) h
        have hLe : lookupSpaceLoop allowedSpaces key now rest
            (listSpaces allowedSpaces now st p).2.1 =
            (some sp, st',
             (lookupSpaceLoop allowedSpaces key now rest
               (listSpaces allowedSpaces now st p).2.1).2.2) := by
          rw [← h1, ← h2]
        exact ih _ _ _ hLe
      · simp only [hnext, if_false] at h
        simp at h

/-- The lookup loop always issues at least one remote call when a remote
page is available. -/
theorem lookupSpaceLoop_calls_nonempty (allowedSpaces : List String) (key : String)
    (now : Nat) (p : SpacesPage) (rest : List SpacesPage) (st : ClientState) :
    (lookupSpaceLoop allowedSpaces key now (p :: rest) st).2.2 ≠ [] := by
  unfold lookupSpaceLoop
  cases hfind : (listSpaces allowedSpaces now st p).1.results.find?
      (fun s => s.key == key) with
  | some sp =>
    simp only [hfind]
    rw [(listSpaces_components allowedSpaces now st p).2.2]
    simp
  | none =>
    simp only [hfind]
    by_cases hnext : (listSpaces allowedSpaces now st p).1.next
    · simp only [hnext, if_true]
      rw [(listSpaces_components allowedSpaces now st p).2.2]
      simp
    · simp only [hnext, if_false]
      rw [(listSpaces_components allowedSpaces now st p).2.2]
      simp

/-- C5: after a cache-missing `getSpaceByKey` succeeds, a second call for
the same key within the TTL window is served from the space cache with
zero remote calls — so across the two consecutive calls only the first
one's lookup touches the remote — while a call made at or after the
cached entry's expiry timestamp performs a fresh remote lookup (its
remote-call trace is non-empty). -/
theorem getSpaceByKey_cache_ttl (allowedSpaces : List String)
    (pages pages2 : List SpacesPage) (p3 : SpacesPage) (rest3 : List SpacesPage)
    (t1 t2 t3 : Nat) (st0 st1 : ClientState) (key : String) (sp : ConfluenceSpace)
    (calls1 : List RemoteCall)
    (hmiss : isSpaceCacheValid st0 key t1 = false)
    (h1 : getSpaceByKey allowedSpaces pages t1 st0 key = (.ok sp, st1, calls1))
    (h2 : t2 < t1 + CACHE_TTL) (h3 : t1 + CACHE_TTL ≤ t3) :
    (∃ sp2, getSpaceByKey allowedSpaces pages2 t2 st1 key = (.ok sp2, st1, [])) ∧
    (getSpaceByKey allowedSpaces (p3 :: rest3) t3 st1 key).2.2 ≠ [] := by
  by_cases hv : validateSpaceAccess key allowedSpaces
  · unfold getSpaceByKey at h1
    simp only [hv, Bool.not_true, Bool.false_eq_true, if_false, hmiss] at h1
    rcases hloop : lookupSpaceLoop allowedSpaces key t1 pages st0 with ⟨r, stx, callsx⟩
    rw [hloop] at h1
    cases r with
    | none => simp at h1
    | some space =>
      have hsp : space = sp := by simpa using congrArg (fun x => x.1) h1
      have hstx : stx = st1 := by simpa using congrArg (fun x => x.2.1) h1
      rw [hsp, hstx] at hloop
      obtain ⟨hexp, hcache⟩ :=
        lookupSpaceLoop_found_caches allowedSpaces key t1 pages st0 sp st1 callsx hloop
      have hvalid2 : isSpaceCacheValid st1 key t2 = true := by
        unfold isSpaceCacheValid
        rw [hexp]
        simpa using h2
      have hvalid3 : isSpaceCacheValid st1 key t3 = false := by
        unfold isSpaceCacheValid
        rw [hexp]
        simpa using Nat.not_lt.mpr h3
      obtain ⟨c, hc⟩ := Option.isSome_iff_exists.mp hcache
      constructor
      · refine ⟨c, ?_⟩
        unfold getSpaceByKey
        simp only [hv, Bool.not_true, Bool.false_eq_true, if_false, hvalid2,
          eq_self_iff_true, if_true, hc]
      · unfold getSpaceByKey
        simp only [hv, Bool.not_true, Bool.false_eq_true, if_false, hvalid3]
        rcases hloop3 : lookupSpaceLoop allowedSpaces key t3 (p3 :: rest3) st1
          with ⟨r3, sty, callsy⟩
        have hcalls : callsy ≠ [] := by
          have := lookupSpaceLoop_calls_nonempty allowedSpaces key t3 p3 rest3 st1
          rw [hloop3] at this
          simpa using this
        cases r3 with
        | some s3 => simpa using hcalls
        | none => simpa using hcalls
  · exfalso
    have hvf : validateSpaceAccess key allowedSpaces = false :=
      Bool.not_eq_true _ ▸ Bool.of_not_eq_true hv
    unfold getSpaceByKey at h1
    simp [hvf] at h1

/-- Witness for C5: with a single-page remote holding the `DEV` space, a
first call at time 0 populates the cache; the theorem then yields a
zero-call second read at time 100 and a fresh lookup at the TTL boundary. -/
theorem getSpaceByKey_cache_ttl_witness :
    (∃ sp2, getSpaceByKey ["DEV"] [] 100
        (getSpaceByKey ["DEV"] [⟨[⟨"1", "DEV", "Dev"⟩], 1, false⟩] 0 ⟨[], []⟩ "DEV").2.1
        "DEV" = (.ok sp2,
          (getSpaceByKey ["DEV"] [⟨[⟨"1", "DEV", "Dev"⟩], 1, false⟩] 0 ⟨[], []⟩ "DEV").2.1,
          [])) ∧
    (getSpaceByKey ["DEV"] [⟨[⟨"1", "DEV", "Dev"⟩], 1, false⟩] 3600000
        (getSpaceByKey ["DEV"] [⟨[⟨"1", "DEV", "Dev"⟩], 1, false⟩] 0 ⟨[], []⟩ "DEV").2.1
        "DEV").2.2 ≠ [] := by
  refine getSpaceByKey_cache_ttl ["DEV"] [⟨[⟨"1", "DEV", "Dev"⟩], 1, false⟩] []
    ⟨[⟨"1", "DEV", "Dev"⟩], 1, false⟩ [] 0 100 3600000 ⟨[], []⟩
    (getSpaceByKey ["DEV"] [⟨[⟨"1", "DEV", "Dev"⟩], 1, false⟩] 0 ⟨[], []⟩ "DEV").2.1
    "DEV" ⟨"1", "DEV", "Dev"⟩
    (getSpaceByKey ["DEV"] [⟨[⟨"1", "DEV", "Dev"⟩], 1, false⟩] 0 ⟨[], []⟩ "DEV").2.2
    (by decide) ?_ (by decide) (by decide)
  rfl

/-- Body enrichment never changes a page's identity. -/
theorem enrichPage_id (debug : Bool) (fetchBody : String → Except String (Option String))
    (page : ConfluencePage) : (enrichPage debug fetchBody page).1.id = page.id := by
  unfold enrichPage
  cases fetchBody page.id with
  | error e => rfl
  | ok ob => cases ob <;> rfl

/-- Without the debug flag, enrichment emits no warnings at all. -/
theorem enrichPage_no_debug_no_warning (fetchBody : String → Except String (Option String))
    (page : ConfluencePage) : (enrichPage false fetchBody page).2 = [] := by
  unfold enrichPage
  cases fetchBody page.id with
  | error e => rfl
  | ok ob => cases ob <;> rfl

/-- Flattening a map that produces only empty lists yields the empty
list. -/
theorem flatten_map_nil {α β : Type} (l : List α) :
    (l.map (fun _ => ([] : List β))).flatten = [] := by
  induction l with
  | nil => rfl
  | cons h t ih =>
    simp only [List.map_cons, List.flatten_cons, List.nil_append]
    exact ih

/-- Counterexample to C6 as stated: with the debug flag off, a failing
per-item body fetch produces no warning at all — the warnings trace is
empty even though the fetch failed — while the listing itself still
succeeds with the page included without a body. -/
theorem enrichment_warning_needs_debug_counterexample :
    (fun (_ : String) => (Except.error "network down" : Except String (Option String))) "p1" =
      .error "network down" ∧
    (getSpaceContent ["DEV"] false ⟨[⟨"p1", "T", none, 1, none⟩], 1⟩
        (fun _ => .error "network down") "DEV" 25 0 (some "storage")).2.2 = [] ∧
    (getSpaceContent ["DEV"] false ⟨[⟨"p1", "T", none, 1, none⟩], 1⟩
        (fun _ => .error "network down") "DEV" 25 0 (some "storage")).1 =
      .ok ⟨[⟨"p1", "T", none, 1, none⟩], 1⟩ := by
  refine ⟨rfl, ?_, ?_⟩ <;> rfl

/-- C6 (amended): a failing per-item body fetch is caught — the overall
listing still succeeds in full (same pages, ids in order), the affected
page is included unchanged, hence without a body, and the failure
produces the warning exactly when the debug flag is set (no warning
otherwise). `getSpaceContent` and `getPageChildren` behave alike. -/
theorem enrichment_failure_nonfatal (allowedSpaces : List String) (debug : Bool)
    (remote : PagesResult) (fetchBody : String → Except String (Option String))
    (spaceKey : String) (limit start : Nat) (fmt : String) (hfmt : fmt ≠ "")
    (hallow : validateSpaceAccess spaceKey allowedSpaces = true)
    (hne : remote.results ≠ [])
    (parentFetched : ConfluencePage) (pageId parentKey : String)
    (hpk : parentFetched.spaceKey = some parentKey) (hpkne : parentKey ≠ "")
    (hpallow : validateSpaceAccess parentKey allowedSpaces = true) :
    (getSpaceContent allowedSpaces debug remote fetchBody spaceKey limit start (some fmt)).1 =
      .ok ⟨remote.results.map (fun p => (enrichPage debug fetchBody p).1), remote.size⟩ ∧
    (getSpaceContent allowedSpaces debug remote fetchBody spaceKey limit start
        (some fmt)).2.2 =
      (remote.results.map (fun p => (enrichPage debug fetchBody p).2)).flatten ∧
    (getPageChildren allowedSpaces debug parentFetched remote fetchBody pageId limit start
        (some fmt)).1 =
      .ok ⟨remote.results.map (fun p => (enrichPage debug fetchBody p).1), remote.size⟩ ∧
    (remote.results.map (fun p => (enrichPage debug fetchBody p).1)).map (fun p => p.id) =
      remote.results.map (fun p => p.id) ∧
    (∀ q e, fetchBody q.id = .error e →
      enrichPage debug fetchBody q =
        (q, if debug then ["Failed to retrieve body content for page " ++ q.id]
            else [])) ∧
    (debug = false →
      (getSpaceContent allowedSpaces debug remote fetchBody spaceKey limit start
          (some fmt)).2.2 = []) := by
  have hfmtb : (fmt == "") = false := beq_eq_false_iff_ne.mpr hfmt
  have hpkb : (parentKey == "") = false := beq_eq_false_iff_ne.mpr hpkne
  have hneb : remote.results.isEmpty = false := by
    cases hres : remote.results with
    | nil => exact absurd hres hne
    | cons a t => rfl
  have hsc : (getSpaceContent allowedSpaces debug remote fetchBody spaceKey limit start
      (some fmt)).1 =
        .ok ⟨remote.results.map (fun p => (enrichPage debug fetchBody p).1), remote.size⟩ ∧
      (getSpaceContent allowedSpaces debug remote fetchBody spaceKey limit start
        (some fmt)).2.2 =
        (remote.results.map (fun p => (enrichPage debug fetchBody p).2)).flatten := by
    unfold getSpaceContent
    simp [hallow, jsTruthy, hfmtb, hfmt, hneb, List.map_map, Function.comp_def]
  refine ⟨hsc.1, hsc.2, ?_, ?_, ?_, ?_⟩
  · unfold getPageChildren getPage
    simp [hpk, hpkb, hpkne, hpallow, jsTruthy, hfmtb, hfmt, hneb, List.map_map,
      Function.comp_def]
  · rw [List.map_map]
    exact List.map_congr_left (fun p _ => enrichPage_id debug fetchBody p)
  · intro q e hq
    unfold enrichPage
    rw [hq]
  · intro hdbg
    subst hdbg
    rw [hsc.2]
    have hall : (remote.results.map (fun p => (enrichPage false fetchBody p).2)) =
        remote.results.map (fun _ => ([] : List String)) :=
      List.map_congr_left (fun p _ => enrichPage_no_debug_no_warning fetchBody p)
    rw [hall, flatten_map_nil]

/-- Witness for C6 (amended): with debug enabled a concrete failing fetch
leaves the page untouched and yields exactly the warning line. -/
theorem enrichment_failure_nonfatal_witness :
    enrichPage true (fun _ => .error "network down") ⟨"p1", "T", none, 1, none⟩ =
      (⟨"p1", "T", none, 1, none⟩,
       ["Failed to retrieve body content for page " ++ "p1"]) := by
  have h := enrichment_failure_nonfatal ["DEV"] true ⟨[⟨"p1", "T", none, 1, none⟩], 1⟩
    (fun _ => .error "network down") "DEV" 25 0 "storage" (by decide) (by decide)
    (by simp) ⟨"pp", "P", some "DEV", 1, none⟩ "pp" "DEV" rfl (by decide) (by decide)
  exact h.2.2.2.2.1 ⟨"p1", "T", none, 1, none⟩ "network down" rfl

end ConfluenceMcp
